import Mathlib

/-
Shallow embedding of `base_strategy.py` (class `BaseStrategy`) from the
freqtrade-cyber-bots repository.

Modelling conventions:
- Python floats are modelled as rationals (ℚ); `float(v)` applied to a value
  that is already numeric is the identity in this model.
- Python dictionaries are modelled as association lists (`List (String × _)`)
  with insertion-order semantics: updating an existing key replaces its value
  in place, a new key is appended at the end, matching Python dict semantics.
- Python object references to mutable dataframes are modelled as indices into
  an explicit heap (`List α`); `df.copy()` allocates a fresh cell.
- `datetime` values are modelled by their epoch value in seconds (ℚ); where
  the code inspects `minute`/`second` fields those are carried alongside.
- Host-framework collaborators (`Trade.get_trades_proxy`, `self.dp.ticker`,
  `timeframe_to_minutes`, `PairLocks`) are modelled as data carried in the
  strategy state: the open-trade list, a ticker function, a
  timeframe-to-minutes function and a lock-query function.
- Calls with externally visible effects (`unlock_reason`, error logging)
  are recorded in an event trace returned next to the new state.
-/

namespace BaseStrategy

/-- An open trade as returned by the host's `Trade.get_trades_proxy(is_open=True)`:
only the fields read by `get_trade_stoploss_count` are modelled. -/
structure TradeInfo where
  pair : String
  stop_loss : ℚ
  initial_stop_loss_pct : ℚ
deriving DecidableEq

/-- One entry of `self.custom_info['cache']`: the stored timeframe string,
a heap reference to the copied dataframe, and the storage time
(`datetime.now()`, in epoch seconds). -/
structure CacheEntry where
  tf : String
  df : Nat
  datetime : ℚ
deriving DecidableEq

/-- The mutable state of a `BaseStrategy` instance, together with the host
collaborators it reads. `α` is the type of dataframe contents; `heap` holds
the dataframe objects and cache entries refer into it by index. -/
structure StratState (α : Type) where
  heap : List α
  cache : List (String × CacheEntry)
  remove_autolock : List String
  max_open_trades : Int
  config_mot : Option (Option Int)
  config_max_trades : Int
  enable_improved_trade_count : Bool
  open_trades : List TradeInfo
  ticker_last : String → ℚ
  timeframe_to_minutes : String → ℚ
  locked_until : String → String

/-- A notification/date-time pair for `bot_loop_start`: the epoch value in
seconds together with the `minute` and `second` fields the code reads. -/
structure PyDateTime where
  epoch : ℚ
  minute : Nat
  second : Nat

/-- Externally visible calls recorded while running a callback. -/
inductive Event where
  | unlockReason (reason : String)
  | errorLog (pair : String)
deriving DecidableEq

variable {α : Type} {β : Type}

/-- Model of `get_trade_stoploss_count` (base_strategy.py lines 622-650): loops over the
open trades, computes the distance of the current stoploss to the ticker's
last rate, and counts the trades whose stoploss has moved more than 0.1 away
from the initial stoploss percentage. -/
def get_trade_stoploss_count (s : StratState α) : Nat :=
  s.open_trades.foldl
    (fun trade_count opentrade =>
      let current_rate := s.ticker_last opentrade.pair
      let stoploss_current_dist := opentrade.stop_loss - current_rate
      let ratio := stoploss_current_dist / current_rate
      if |opentrade.initial_stop_loss_pct - ratio| > 0.1 then
        trade_count + 1
      else
        trade_count)
    0

/-- Model of `update_max_trade_count` (base_strategy.py lines 592-619): when
`enable_improved_trade_count` is off the function returns immediately;
otherwise it computes `config_max_trades + get_trade_stoploss_count()` and,
only when that differs from the current `max_open_trades`, writes it to both
`self.max_open_trades` and `self.config['max_open_trades']`. -/
def update_max_trade_count (s : StratState α) : StratState α :=
  if ¬ s.enable_improved_trade_count then
    s
  else
    let sl_trade_count := get_trade_stoploss_count s
    let current_trade_count := s.max_open_trades
    let new_trade_count := s.config_max_trades + (sl_trade_count : Int)
    if current_trade_count ≠ new_trade_count then
      { s with max_open_trades := new_trade_count,
               config_mot := some (some new_trade_count) }
    else
      s

/-- Model of `cleanup_cache` (base_strategy.py lines 572-589): first collects the keys
whose stored update time lies further in the past (in minutes, with a margin
of two minutes) than the entry's timeframe length in minutes, then deletes
those keys from the cache dictionary. -/
def cleanup_cache (s : StratState α) (currentdatetime : ℚ) : StratState α :=
  let outdatedkeys :=
    s.cache.foldl
      (fun acc kv =>
        let minutes := (currentdatetime - kv.2.datetime) / 60
        if minutes - 2 > s.timeframe_to_minutes kv.2.tf then
          acc ++ [kv.1]
        else
          acc)
      []
  { s with cache := outdatedkeys.foldl (fun c key => c.filter (fun kv => kv.1 ≠ key)) s.cache }

/-- Model of `bot_loop_start` (base_strategy.py lines 163-196): every five minutes
(first nine seconds of the minute) it cleans the cache and refreshes the
max-trade count; then, when pairs are scheduled for auto-lock removal, it
calls `unlock_reason('Auto lock')`, logs an error for every pair still
locked, and clears the list. Returns the new state and the event trace. -/
def bot_loop_start (s : StratState α) (current_time : PyDateTime) : StratState α × List Event :=
  let s1 :=
    if current_time.minute % 5 = 0 ∧ current_time.second ≤ 8 then
      update_max_trade_count (cleanup_cache s current_time.epoch)
    else
      s
  if 0 < s1.remove_autolock.length then
    let evs :=
      Event.unlockReason "Auto lock" ::
        s1.remove_autolock.foldl
          (fun acc pair =>
            if s1.locked_until pair ≠ "" then acc ++ [Event.errorLog pair] else acc)
          []
    ({ s1 with remove_autolock := [] }, evs)
  else
    (s1, [])

/-- Heap allocation of a new dataframe object: appends the value and returns
the new heap together with the reference (index) of the fresh cell. -/
def heapAlloc (h : List α) (v : α) : List α × Nat :=
  (h ++ [v], h.length)

/-- Dereference a dataframe object. -/
def heapRead [Inhabited α] (h : List α) (r : Nat) : α :=
  h.getD r default

/-- In-place mutation of the dataframe object behind reference `r`. -/
def heapWrite (h : List α) (r : Nat) (v : α) : List α :=
  h.set r v

/-- Update an association list the way a Python dict (or pandas column)
assignment does: replace the value of an existing key in place, append a new
key at the end. -/
def dictSet {γ : Type} (l : List (String × γ)) (k : String) (v : γ) :
    List (String × γ) :=
  if (l.lookup k).isSome then
    l.map (fun kv => if kv.1 = k then (k, v) else kv)
  else
    l ++ [(k, v)]

/-- Model of `cache_dataframe` (base_strategy.py lines 510-530): under key
`pair_tf` it creates a fresh entry (storing `tf`) when the key is new, then
stores a copy (`df.copy()`, a fresh heap cell with the same contents) of the
dataframe and the current time. -/
def cache_dataframe [Inhabited α] (s : StratState α) (df : Nat) (pair tf : String)
    (now : ℚ) : StratState α :=
  let key := pair ++ "_" ++ tf
  let (heap2, newref) := heapAlloc s.heap (heapRead s.heap df)
  let entry0 : CacheEntry :=
    match s.cache.lookup key with
    | some e => e
    | none => { tf := tf, df := newref, datetime := now }
  let entry := { entry0 with df := newref, datetime := now }
  { s with heap := heap2, cache := dictSet s.cache key entry }

/-- Model of `get_dataframe_from_cache` (base_strategy.py lines 533-546): returns the
dataframe stored under `pair_tf`, or `None` when the key is absent. -/
def get_dataframe_from_cache (s : StratState α) (pair tf : String) : Option Nat :=
  (s.cache.lookup (pair ++ "_" ++ tf)).map (fun e => e.df)

/-- The fixed `min_profit` class attribute (0.0025, i.e. 0.25%). -/
def min_profit : ℚ := 0.0025

/-- Model of `confirm_trade_exit` (base_strategy.py lines 242-286). Host collaborators
enter as values: `superConfirmed` is the superclass result and `profit` is
`trade.calc_profit_ratio(rate)`. For the five regular exit reasons the exit
is rejected when the profit does not exceed `min_profit`; otherwise the
superclass result is returned. -/
def confirm_trade_exit (superConfirmed : Bool) (profit : ℚ) (exit_reason : String) : Bool :=
  let confirmed := superConfirmed
  if exit_reason ∈ ["roi", "stop_loss", "stoploss_on_exchange", "trailing_stop_loss", "exit_signal"] then
    if profit ≤ min_profit then false else confirmed
  else
    confirmed

/-- Model of `log` (base_strategy.py lines 418-448), reduced to its observable
notification decision: returns whether `self.dp.send_msg` is called.
`logger_present` models the truthiness of `self.logger`, `notify` the
optional third argument. Inside the level match, WARNING and ERROR recompute
`send_notification` as `True if notify is None else notify`. -/
def log_sends (logger_present : Bool) (level : String) (notify : Option Bool) : Bool :=
  let send_notification := match notify with | none => false | some b => b
  if logger_present then
    match level with
    | "INFO" => send_notification
    | "DEBUG" => send_notification
    | "WARNING" => (match notify with | none => true | some b => b)
    | "ERROR" => (match notify with | none => true | some b => b)
    | _ => send_notification
  else
    send_notification

/-- A dataframe row, as an association list from column name to cell value. -/
abbrev Row (β : Type) : Type := List (String × β)

/-- Pandas `df.loc[:, c] = v`: set column `c` to `v` in every row (adding the
column when it does not exist yet). -/
def setCol (df : List (Row β)) (c : String) (v : β) : List (Row β) :=
  df.map (fun r => dictSet r c v)

/-- Model of `populate_indicators` (base_strategy.py lines 199-211): returns the
dataframe unchanged. -/
def populate_indicators (df : List (Row β)) (metadata : List (String × String)) :
    List (Row β) :=
  df

/-- Model of `populate_entry_trend` (base_strategy.py lines 214-225): sets the
`enter_long` column to 0, then the `enter_short` column to 0. -/
def populate_entry_trend [Zero β] (df : List (Row β)) (metadata : List (String × String)) :
    List (Row β) :=
  setCol (setCol df "enter_long" (0 : β)) "enter_short" (0 : β)

/-- Model of `populate_exit_trend` (base_strategy.py lines 228-239): sets the
`exit_long` column to 0, then the `exit_short` column to 0. -/
def populate_exit_trend [Zero β] (df : List (Row β)) (metadata : List (String × String)) :
    List (Row β) :=
  setCol (setCol df "exit_long" (0 : β)) "exit_short" (0 : β)

/-- Model of `leverage` (base_strategy.py lines 320-346): start from 1.0, use the
configured value under `pair_side` when present, else the configured
`default` when present. -/
def leverage (leverage_configuration : List (String × ℚ)) (pair : String)
    (proposed_leverage max_leverage : ℚ) (side : String) : ℚ :=
  let pairkey := pair ++ "_" ++ side
  match leverage_configuration.lookup pairkey with
  | some l => l
  | none =>
    match leverage_configuration.lookup "default" with
    | some l => l
    | none => 1

/-- Python `round(x, 4)` (round half to even), idealised on ℚ. -/
def pyRound4 (x : ℚ) : ℚ :=
  let y := x * 10000
  let n := ⌊y⌋
  let fr := y - (n : ℚ)
  let r : Int :=
    if fr < 1/2 then n
    else if 1/2 < fr then n + 1
    else if n % 2 = 0 then n else n + 1
  (r : ℚ) / 10000

/-- Python `min` over a non-empty list of dict values. -/
def pyMin (v : ℚ) (vs : List ℚ) : ℚ :=
  vs.foldl min v

/-- The attributes `__init__` writes (base_strategy.py lines 111-139). -/
structure InitResult where
  leverage_configuration : List (String × ℚ)
  minimal_roi : List (String × ℚ)
  stoploss : ℚ
  config_max_trades : Int

/-- Model of `__init__` (base_strategy.py lines 111-139). `config_mot` is
`config['max_open_trades']`: `none` when the key is absent, `some none` when
present but not an int, `some (some n)` when it is the int `n`. The values of
`leverage_configuration` are passed through `float`, the identity on the ℚ
model; the minimum of its values (1.0 for an empty configuration) scales
every `minimal_roi` value (rounded to 4 digits) and the stoploss. -/
def initStrategy (config_mot : Option (Option Int))
    (leverage_configuration : List (String × ℚ))
    (minimal_roi : List (String × ℚ)) (stoploss : ℚ) : InitResult :=
  let config_max_trades : Int :=
    match config_mot with
    | some v =>
      match v with
      | some n => n
      | none => 0
    | none => 0
  let lev2 := leverage_configuration.map (fun kv => (kv.1, kv.2))
  let lev :=
    match lev2.map (fun kv => kv.2) with
    | [] => 1
    | v :: vs => pyMin v vs
  { leverage_configuration := lev2,
    minimal_roi := minimal_roi.map (fun kv => (kv.1, pyRound4 (kv.2 * lev))),
    stoploss := stoploss * lev,
    config_max_trades := config_max_trades }

/-! Concrete states used to exercise the definitions on closed inputs. -/

/-- A state in which `max_open_trades` already equals
`config_max_trades + get_trade_stoploss_count` (no open trades) while
`config['max_open_trades']` holds a different value. -/
def s_desync : StratState Unit where
  heap := []
  cache := []
  remove_autolock := []
  max_open_trades := 5
  config_mot := some (some 7)
  config_max_trades := 5
  enable_improved_trade_count := true
  open_trades := []
  ticker_last := fun _ => 1
  timeframe_to_minutes := fun _ => 1
  locked_until := fun _ => ""

/-- A state whose `max_open_trades` differs from the recomputed count. -/
def s_fresh : StratState Unit where
  heap := []
  cache := []
  remove_autolock := []
  max_open_trades := 3
  config_mot := some (some 3)
  config_max_trades := 5
  enable_improved_trade_count := true
  open_trades := []
  ticker_last := fun _ => 1
  timeframe_to_minutes := fun _ => 1
  locked_until := fun _ => ""

/-- A state with the improved trade count disabled. -/
def s_off : StratState Unit where
  heap := []
  cache := []
  remove_autolock := []
  max_open_trades := 3
  config_mot := some (some 3)
  config_max_trades := 5
  enable_improved_trade_count := false
  open_trades := []
  ticker_last := fun _ => 1
  timeframe_to_minutes := fun _ => 1
  locked_until := fun _ => ""

/-- A state with one pair scheduled for auto-lock removal. -/
def s_autolock : StratState Unit where
  heap := []
  cache := []
  remove_autolock := ["BTC/USDT"]
  max_open_trades := 3
  config_mot := some (some 3)
  config_max_trades := 3
  enable_improved_trade_count := false
  open_trades := []
  ticker_last := fun _ => 1
  timeframe_to_minutes := fun _ => 1
  locked_until := fun _ => ""

/-- A state with a single cache entry. -/
def s_cached : StratState Unit where
  heap := []
  cache := [("BTC/USDT_1h", { tf := "1h", df := 0, datetime := 0 })]
  remove_autolock := []
  max_open_trades := 3
  config_mot := some (some 3)
  config_max_trades := 3
  enable_improved_trade_count := false
  open_trades := []
  ticker_last := fun _ => 1
  timeframe_to_minutes := fun _ => 1
  locked_until := fun _ => ""

/-- A state over integer dataframes with one allocated dataframe object. -/
def s_heap : StratState Int where
  heap := [3]
  cache := []
  remove_autolock := []
  max_open_trades := 3
  config_mot := some (some 3)
  config_max_trades := 3
  enable_improved_trade_count := false
  open_trades := []
  ticker_last := fun _ => 1
  timeframe_to_minutes := fun _ => 1
  locked_until := fun _ => ""

/-- A one-row integer dataframe with a single `close` column. -/
def df_one : List (Row Int) := [[("close", 5)]]

/-! Helper lemmas shared by the claim theorems. -/

theorem foldl_count_filter {γ : Type} (p : γ → Prop) [DecidablePred p]
    (l : List γ) (n : ℕ) :
    l.foldl (fun c t => if p t then c + 1 else c) n
      = n + (l.filter (fun t => decide (p t))).length := by
  induction l generalizing n with
  | nil => simp
  | cons a l ih =>
    by_cases h : p a
    · simp [List.foldl_cons, List.filter_cons, h, ih]
      omega
    · simp [List.foldl_cons, List.filter_cons, h, ih]

theorem foldl_append_filter {γ δ : Type} (p : γ → Prop) [DecidablePred p]
    (f : γ → δ) (l : List γ) (acc : List δ) :
    l.foldl (fun a x => if p x then a ++ [f x] else a) acc
      = acc ++ (l.filter (fun x => decide (p x))).map f := by
  induction l generalizing acc with
  | nil => simp
  | cons a l ih =>
    by_cases h : p a <;> simp [List.foldl_cons, List.filter_cons, h, ih]

theorem foldl_erase_keys {γ : Type} (keys : List String) (c : List (String × γ)) :
    keys.foldl (fun c k => c.filter (fun kv => decide (kv.1 ≠ k))) c
      = c.filter (fun kv => decide (kv.1 ∉ keys)) := by
  induction keys generalizing c with
  | nil => simp
  | cons k ks ih =>
    rw [List.foldl_cons, ih, List.filter_filter]
    apply List.filter_congr
    intro kv _
    by_cases h1 : kv.1 = k <;> by_cases h2 : kv.1 ∈ ks <;>
      simp [h1, h2]

theorem eq_of_mem_pairwise_keys {γ : Type} {l : List (String × γ)}
    (h : l.Pairwise (fun a b => a.1 ≠ b.1)) {x y : String × γ}
    (hx : x ∈ l) (hy : y ∈ l) (hxy : x.1 = y.1) : x = y := by
  induction l with
  | nil => cases hx
  | cons a l ih =>
    rcases List.pairwise_cons.1 h with ⟨ha, hl⟩
    rcases List.mem_cons.1 hx with hx1 | hx1 <;> rcases List.mem_cons.1 hy with hy1 | hy1
    · rw [hx1, hy1]
    · exact absurd hxy (hx1 ▸ ha y hy1)
    · exact absurd hxy.symm (hy1 ▸ ha x hx1)
    · exact ih hl hx1 hy1

theorem lookup_map_replace {γ : Type} (l : List (String × γ)) (k : String) (v : γ) :
    (l.map (fun kv => if kv.1 = k then (k, v) else kv)).lookup k
      = if (l.lookup k).isSome then some v else none := by
  induction l with
  | nil => simp
  | cons a l ih =>
    obtain ⟨a1, a2⟩ := a
    rw [List.map_cons]
    by_cases hk : a1 = k
    · subst hk
      simp [List.lookup_cons_self]
    · rw [if_neg hk]
      have hb : (k == a1) = false := beq_false_of_ne (Ne.symm hk)
      rw [List.lookup_cons, List.lookup_cons, hb]
      exact ih

theorem lookup_map_replace_ne {γ : Type} (l : List (String × γ)) (k : String) (v : γ)
    (k2 : String) (h : k2 ≠ k) :
    (l.map (fun kv => if kv.1 = k then (k, v) else kv)).lookup k2 = l.lookup k2 := by
  induction l with
  | nil => rfl
  | cons a l ih =>
    obtain ⟨a1, a2⟩ := a
    rw [List.map_cons]
    by_cases hk : a1 = k
    · subst hk
      simp [List.lookup_cons, beq_false_of_ne h, ih]
    · by_cases hk2 : k2 = a1
      · subst hk2
        simp [hk, List.lookup_cons_self]
      · simp [hk, List.lookup_cons, beq_false_of_ne hk2, ih]

theorem lookup_append_left_none {γ : Type} (l l2 : List (String × γ)) (k : String)
    (h : l.lookup k = none) : (l ++ l2).lookup k = l2.lookup k := by
  simp [List.lookup_append, h]

theorem lookup_append_single_ne {γ : Type} (l : List (String × γ)) (k : String) (v : γ)
    (k2 : String) (h : k2 ≠ k) : (l ++ [(k, v)]).lookup k2 = l.lookup k2 := by
  simp [List.lookup_append, List.lookup_cons, beq_false_of_ne h]

theorem lookup_dictSet_self {γ : Type} (l : List (String × γ)) (k : String) (v : γ) :
    (dictSet l k v).lookup k = some v := by
  unfold dictSet
  split
  · next h => rw [lookup_map_replace, if_pos h]
  · next h =>
    have h0 : l.lookup k = none := by
      cases hl : l.lookup k with
      | none => rfl
      | some w => rw [hl] at h; simp at h
    rw [lookup_append_left_none _ _ _ h0]
    simp [List.lookup]

theorem lookup_dictSet_ne {γ : Type} (l : List (String × γ)) (k : String) (v : γ)
    (k2 : String) (h : k2 ≠ k) : (dictSet l k v).lookup k2 = l.lookup k2 := by
  unfold dictSet
  split
  · exact lookup_map_replace_ne _ _ _ _ h
  · exact lookup_append_single_ne _ _ _ _ h

theorem lookup_map_snd {γ δ : Type} (f : γ → δ) (l : List (String × γ)) (k : String) :
    (l.map (fun kv => (kv.1, f kv.2))).lookup k = (l.lookup k).map f := by
  induction l with
  | nil => rfl
  | cons a l ih =>
    obtain ⟨a1, a2⟩ := a
    rw [List.map_cons]
    by_cases hk : k = a1
    · subst hk
      simp [List.lookup_cons_self]
    · simp [List.lookup_cons, beq_false_of_ne hk, ih]

theorem heapRead_alloc_fresh {γ : Type} [Inhabited γ] (h : List γ) (v : γ) :
    heapRead (h ++ [v]) h.length = v := by
  simp [heapRead, List.getD_eq_getElem?_getD]

theorem heapRead_write_alloc {γ : Type} [Inhabited γ] (h : List γ) (v w : γ)
    (r : Nat) (hr : r < h.length) :
    heapRead (heapWrite (h ++ [v]) r w) h.length = v := by
  have hset : (h ++ [v]).set r w = h.set r w ++ [v] := by
    rw [List.set_append]
    simp [hr]
  have hlen : h.length = (h.set r w).length := by simp
  rw [heapWrite, hset, hlen, heapRead_alloc_fresh]

/-! Theorems settling the claims. -/

/-- C3: `cleanup_cache` removes exactly the cache entries whose age in
minutes, reduced by the two-minute margin, strictly exceeds the
timeframe-to-minutes value of the entry's stored timeframe, and keeps every
other entry unchanged: the resulting cache is the original one filtered to
the non-outdated entries. -/
theorem cleanup_cache_spec {α : Type} (s : StratState α) (now : ℚ)
    (hkeys : s.cache.Pairwise (fun a b => a.1 ≠ b.1)) :
    (cleanup_cache s now).cache
      = s.cache.filter (fun kv =>
          decide (¬ ((now - kv.2.datetime) / 60 - 2 > s.timeframe_to_minutes kv.2.tf))) := by
  simp only [cleanup_cache]
  rw [foldl_append_filter
    (fun kv : String × CacheEntry =>
      (now - kv.2.datetime) / 60 - 2 > s.timeframe_to_minutes kv.2.tf) (fun kv => kv.1)]
  rw [List.nil_append, foldl_erase_keys]
  apply List.filter_congr
  intro kv hkv
  have key_iff :
      kv.1 ∈ (s.cache.filter (fun kv : String × CacheEntry =>
          decide ((now - kv.2.datetime) / 60 - 2 > s.timeframe_to_minutes kv.2.tf))).map
            (fun kv => kv.1)
        ↔ (now - kv.2.datetime) / 60 - 2 > s.timeframe_to_minutes kv.2.tf := by
    constructor
    · intro hmem
      rcases List.mem_map.1 hmem with ⟨kv2, hkv2, hkey⟩
      rcases List.mem_filter.1 hkv2 with ⟨hkv2c, hcond⟩
      have : kv2 = kv := eq_of_mem_pairwise_keys hkeys hkv2c hkv hkey
      rw [this] at hcond
      exact of_decide_eq_true hcond
    · intro hcond
      exact List.mem_map.2 ⟨kv, List.mem_filter.2 ⟨hkv, decide_eq_true hcond⟩, rfl⟩
  by_cases hc : (now - kv.2.datetime) / 60 - 2 > s.timeframe_to_minutes kv.2.tf <;>
    simp [hc, key_iff]

/-- C3 witness: on a state with a single fresh cache entry the cleanup keeps
the cache equal to its filtered form. -/
theorem cleanup_cache_spec_witness :
    s_cached.cache.Pairwise (fun a b => a.1 ≠ b.1)
    ∧ (cleanup_cache s_cached 0).cache
      = s_cached.cache.filter (fun kv =>
          decide (¬ ((0 - kv.2.datetime) / 60 - 2 > s_cached.timeframe_to_minutes kv.2.tf))) :=
  ⟨List.pairwise_singleton _ _, cleanup_cache_spec s_cached 0 (List.pairwise_singleton _ _)⟩

theorem remove_autolock_cleanup {α : Type} (s : StratState α) (now : ℚ) :
    (cleanup_cache s now).remove_autolock = s.remove_autolock := rfl

theorem remove_autolock_update {α : Type} (s : StratState α) :
    (update_max_trade_count s).remove_autolock = s.remove_autolock := by
  simp only [update_max_trade_count]
  split
  · rfl
  · split <;> rfl

/-- C8: after every call to `bot_loop_start` the `remove-autolock` list is
empty, and whenever it was non-empty at entry, `unlock_reason('Auto lock')`
was invoked during the call. -/
theorem bot_loop_start_spec {α : Type} (s : StratState α) (t : PyDateTime) :
    (bot_loop_start s t).1.remove_autolock = []
    ∧ (s.remove_autolock ≠ [] →
        Event.unlockReason "Auto lock" ∈ (bot_loop_start s t).2) := by
  simp only [bot_loop_start]
  set s1 := if t.minute % 5 = 0 ∧ t.second ≤ 8 then
      update_max_trade_count (cleanup_cache s t.epoch)
    else s with hs1
  have hal : s1.remove_autolock = s.remove_autolock := by
    rw [hs1]
    split
    · rw [remove_autolock_update, remove_autolock_cleanup]
    · rfl
  by_cases hpos : 0 < s1.remove_autolock.length
  · rw [if_pos hpos]
    exact ⟨rfl, fun _ => List.mem_cons_self _ _⟩
  · rw [if_neg hpos]
    have hnil : s1.remove_autolock = [] := by
      cases h : s1.remove_autolock with
      | nil => rfl
      | cons a l => rw [h] at hpos; simp at hpos
    refine ⟨hnil, fun hne => absurd ?_ hne⟩
    rw [← hal]
    exact hnil

/-- C8 witness: with one scheduled pair the list is cleared and the unlock
call is recorded. -/
theorem bot_loop_start_spec_witness :
    s_autolock.remove_autolock ≠ []
    ∧ (bot_loop_start s_autolock { epoch := 0, minute := 1, second := 0 }).1.remove_autolock = []
    ∧ Event.unlockReason "Auto lock"
        ∈ (bot_loop_start s_autolock { epoch := 0, minute := 1, second := 0 }).2 := by
  refine ⟨by simp [s_autolock], (bot_loop_start_spec s_autolock _).1,
    (bot_loop_start_spec s_autolock _).2 (by simp [s_autolock])⟩

/-- C2: `get_trade_stoploss_count` returns exactly the number of open trades
whose stoploss distance ratio to the ticker's last rate differs from the
initial stoploss percentage by more than 0.1; in particular the result never
exceeds the number of open trades. -/
theorem get_trade_stoploss_count_spec {α : Type} (s : StratState α) :
    get_trade_stoploss_count s
      = (s.open_trades.filter
          (fun t => decide
            (|t.initial_stop_loss_pct
                - (t.stop_loss - s.ticker_last t.pair) / s.ticker_last t.pair| > 0.1))).length
    ∧ get_trade_stoploss_count s ≤ s.open_trades.length := by
  have h1 : get_trade_stoploss_count s
      = (s.open_trades.filter
          (fun t => decide
            (|t.initial_stop_loss_pct
                - (t.stop_loss - s.ticker_last t.pair) / s.ticker_last t.pair| > 0.1))).length := by
    simp only [get_trade_stoploss_count]
    rw [foldl_count_filter
      (fun t : TradeInfo => |t.initial_stop_loss_pct
        - (t.stop_loss - s.ticker_last t.pair) / s.ticker_last t.pair| > 0.1)]
    simp
  exact ⟨h1, by rw [h1]; exact List.length_filter_le _ _⟩

/-- C9: `leverage` returns the configured value for `pair_side`, else the
configured `default`, else 1.0; the result does not depend on
`proposed_leverage` or `max_leverage` and is in particular never clamped to
the interval from 1.0 to `max_leverage`. -/
theorem leverage_spec (conf : List (String × ℚ)) (pair side : String)
    (proposed_leverage max_leverage : ℚ) :
    leverage conf pair proposed_leverage max_leverage side
      = (match conf.lookup (pair ++ "_" ++ side) with
         | some l => l
         | none => (conf.lookup "default").getD 1)
    ∧ ∀ pl2 ml2 : ℚ,
        leverage conf pair proposed_leverage max_leverage side
          = leverage conf pair pl2 ml2 side := by
  refine ⟨?_, fun pl2 ml2 => rfl⟩
  simp only [leverage]
  cases conf.lookup (pair ++ "_" ++ side) with
  | some l => rfl
  | none =>
    cases conf.lookup "default" with
    | some l => rfl
    | none => rfl

/-- C6 (code bug evaluation): with the logger initialised, calling `log` at
level WARNING or ERROR with an explicit `notify=False` does not call
`self.dp.send_msg`, although the function's own docstring promises that for
WARNING and ERROR the notification is always sent. -/
theorem log_sends_explicit_notify_false :
    log_sends true "WARNING" (some false) = false
    ∧ log_sends true "ERROR" (some false) = false
    ∧ log_sends true "WARNING" none = true
    ∧ log_sends true "ERROR" none = true := by
  exact ⟨rfl, rfl, rfl, rfl⟩

/-- C5: for the five regular exit reasons `confirm_trade_exit` returns False
whenever the profit ratio is at most `min_profit` (so a profit exactly equal
to `min_profit` is rejected), and for `force_exit` and `emergency_exit` it
returns the superclass result unmodified. -/
theorem confirm_trade_exit_spec (sc : Bool) (profit : ℚ) (reason : String) :
    (reason ∈ (["roi", "stop_loss", "stoploss_on_exchange", "trailing_stop_loss",
        "exit_signal"] : List String) →
      profit ≤ min_profit → confirm_trade_exit sc profit reason = false)
    ∧ ((reason = "force_exit" ∨ reason = "emergency_exit") →
      confirm_trade_exit sc profit reason = sc) := by
  constructor
  · intro hmem hp
    simp [confirm_trade_exit, hmem, hp]
  · intro hr
    rcases hr with h | h <;> subst h <;> simp [confirm_trade_exit]

/-- C5 witness: the exit reason `roi` with profit exactly `min_profit` is
rejected, while `force_exit` keeps the superclass confirmation. -/
theorem confirm_trade_exit_spec_witness :
    (("roi" : String) ∈ (["roi", "stop_loss", "stoploss_on_exchange",
        "trailing_stop_loss", "exit_signal"] : List String)
      ∧ min_profit ≤ min_profit
      ∧ confirm_trade_exit true min_profit "roi" = false)
    ∧ ((("force_exit" : String) = "force_exit" ∨ ("force_exit" : String) = "emergency_exit")
      ∧ confirm_trade_exit true min_profit "force_exit" = true) := by
  refine ⟨⟨by decide, le_refl _, ?_⟩, ⟨Or.inl rfl, ?_⟩⟩
  · exact (confirm_trade_exit_spec true min_profit "roi").1 (by decide) (le_refl _)
  · exact (confirm_trade_exit_spec true min_profit "force_exit").2 (Or.inl rfl)

/-- C1 counterexample: in the state `s_desync` the improved trade count is
enabled and the recomputed trade count is 5, equal to the current
`max_open_trades`, so the call takes the else-branch and leaves
`config['max_open_trades']` at 7 instead of setting it to 5 as the claim
demands. -/
theorem update_max_trade_count_config_not_set :
    s_desync.enable_improved_trade_count = true
    ∧ s_desync.config_max_trades + (get_trade_stoploss_count s_desync : Int) = 5
    ∧ (update_max_trade_count s_desync).config_mot = some (some 7)
    ∧ (update_max_trade_count s_desync).config_mot ≠ some (some 5) := by
  exact ⟨rfl, rfl, rfl, by decide⟩

/-- C1 (amended): when `enable_improved_trade_count` is off the call returns
immediately leaving the state unchanged; when it is on, after the call
`max_open_trades` equals `config_max_trades + get_trade_stoploss_count()`,
and `config['max_open_trades']` is also set to that sum provided
`max_open_trades` differed from it before the call. -/
theorem update_max_trade_count_spec {α : Type} (s : StratState α) :
    (s.enable_improved_trade_count = false → update_max_trade_count s = s)
    ∧ (s.enable_improved_trade_count = true →
        (update_max_trade_count s).max_open_trades
          = s.config_max_trades + (get_trade_stoploss_count s : Int)
        ∧ (s.max_open_trades ≠ s.config_max_trades + (get_trade_stoploss_count s : Int) →
            (update_max_trade_count s).config_mot
              = some (some (s.config_max_trades + (get_trade_stoploss_count s : Int))))) := by
  constructor
  · intro h
    simp [update_max_trade_count, h]
  · intro h
    by_cases hne : s.max_open_trades = s.config_max_trades + (get_trade_stoploss_count s : Int)
    · refine ⟨?_, fun hc => absurd hne hc⟩
      simp [update_max_trade_count, h, hne]
    · constructor
      · simp [update_max_trade_count, h, hne]
      · intro _
        simp [update_max_trade_count, h, hne]

/-- C1 witness: with the feature disabled (`s_off`) the state is unchanged;
in `s_fresh`, where the current count 3 differs from the recomputed count 5,
both `max_open_trades` and `config['max_open_trades']` are set to the sum. -/
theorem update_max_trade_count_spec_witness :
    (s_off.enable_improved_trade_count = false ∧ update_max_trade_count s_off = s_off)
    ∧ (s_fresh.enable_improved_trade_count = true
      ∧ s_fresh.max_open_trades ≠ s_fresh.config_max_trades + (get_trade_stoploss_count s_fresh : Int)
      ∧ (update_max_trade_count s_fresh).max_open_trades
          = s_fresh.config_max_trades + (get_trade_stoploss_count s_fresh : Int)
      ∧ (update_max_trade_count s_fresh).config_mot
          = some (some (s_fresh.config_max_trades + (get_trade_stoploss_count s_fresh : Int)))) := by
  refine ⟨⟨rfl, (update_max_trade_count_spec s_off).1 rfl⟩,
    ⟨rfl, by decide, ((update_max_trade_count_spec s_fresh).2 rfl).1,
      ((update_max_trade_count_spec s_fresh).2 rfl).2 (by decide)⟩⟩

/-- C4: after `cache_dataframe(df, pair, tf)`, `get_dataframe_from_cache(pair, tf)`
returns a dataframe whose contents equal the cached dataframe's contents at
caching time; because a copy was stored, mutating the caller's dataframe
object afterwards does not change the cached contents; and for a key that is
absent from the cache the getter returns `None`. -/
theorem cache_dataframe_roundtrip {α : Type} [Inhabited α] (s : StratState α)
    (df : Nat) (pair tf p2 t2 : String) (now : ℚ)
    (hdf : df < s.heap.length)
    (habsent : s.cache.lookup (p2 ++ "_" ++ t2) = none) :
    (get_dataframe_from_cache (cache_dataframe s df pair tf now) pair tf).map
        (heapRead (cache_dataframe s df pair tf now).heap)
      = some (heapRead s.heap df)
    ∧ (∀ v : α,
        (get_dataframe_from_cache (cache_dataframe s df pair tf now) pair tf).map
            (heapRead (heapWrite (cache_dataframe s df pair tf now).heap df v))
          = some (heapRead s.heap df))
    ∧ get_dataframe_from_cache s p2 t2 = none := by
  have hheap : (cache_dataframe s df pair tf now).heap
      = s.heap ++ [heapRead s.heap df] := by
    simp [cache_dataframe, heapAlloc]
  have hget : get_dataframe_from_cache (cache_dataframe s df pair tf now) pair tf
      = some s.heap.length := by
    simp only [get_dataframe_from_cache, cache_dataframe, heapAlloc]
    rw [lookup_dictSet_self]
    rfl
  refine ⟨?_, ?_, ?_⟩
  · rw [hget, Option.map_some', hheap, heapRead_alloc_fresh]
  · intro v
    rw [hget, Option.map_some', hheap, heapRead_write_alloc _ _ _ _ hdf]
  · simp [get_dataframe_from_cache, habsent]

/-- C4 witness: caching dataframe 0 (contents 3) of `s_heap` under
`BTC/USDT`/`1h` and reading it back yields the original contents, mutation
of the caller's object included; `ETH/USDT`/`4h` was never cached and yields
`None`. -/
theorem cache_dataframe_roundtrip_witness :
    0 < s_heap.heap.length
    ∧ s_heap.cache.lookup ("ETH/USDT" ++ "_" ++ "4h") = none
    ∧ (get_dataframe_from_cache (cache_dataframe s_heap 0 "BTC/USDT" "1h" 0) "BTC/USDT" "1h").map
        (heapRead (cache_dataframe s_heap 0 "BTC/USDT" "1h" 0).heap)
      = some (heapRead s_heap.heap 0)
    ∧ (get_dataframe_from_cache (cache_dataframe s_heap 0 "BTC/USDT" "1h" 0) "BTC/USDT" "1h").map
        (heapRead (heapWrite (cache_dataframe s_heap 0 "BTC/USDT" "1h" 0).heap 0 99))
      = some (heapRead s_heap.heap 0)
    ∧ get_dataframe_from_cache s_heap "ETH/USDT" "4h" = none := by
  have h := cache_dataframe_roundtrip s_heap 0 "BTC/USDT" "1h" "ETH/USDT" "4h" 0
    (by decide) rfl
  exact ⟨by decide, rfl, h.1, h.2.1 99, h.2.2⟩

/-- C7: `populate_indicators` returns its input dataframe unchanged;
`populate_entry_trend` yields a dataframe of the same length in which every
row carries `enter_long = 0` and `enter_short = 0`; `populate_exit_trend`
likewise zeroes `exit_long` and `exit_short` in every row. -/
theorem populate_callbacks_spec {β : Type} [Zero β] (df : List (Row β))
    (metadata : List (String × String)) (r r2 : Row β)
    (h1 : r ∈ populate_entry_trend df metadata)
    (h2 : r2 ∈ populate_exit_trend df metadata) :
    populate_indicators df metadata = df
    ∧ r.lookup "enter_long" = some 0 ∧ r.lookup "enter_short" = some 0
    ∧ r2.lookup "exit_long" = some 0 ∧ r2.lookup "exit_short" = some 0
    ∧ (populate_entry_trend df metadata).length = df.length
    ∧ (populate_exit_trend df metadata).length = df.length := by
  obtain ⟨r1, hr1, hrr⟩ := List.mem_map.1 h1
  obtain ⟨r0, _, hrr1⟩ := List.mem_map.1 hr1
  obtain ⟨q1, hq1, hqq⟩ := List.mem_map.1 h2
  obtain ⟨q0, _, hqq1⟩ := List.mem_map.1 hq1
  refine ⟨rfl, ?_, ?_, ?_, ?_, ?_, ?_⟩
  · rw [← hrr, lookup_dictSet_ne _ _ _ _ (by decide), ← hrr1, lookup_dictSet_self]
  · rw [← hrr, lookup_dictSet_self]
  · rw [← hqq, lookup_dictSet_ne _ _ _ _ (by decide), ← hqq1, lookup_dictSet_self]
  · rw [← hqq, lookup_dictSet_self]
  · simp [populate_entry_trend, setCol]
  · simp [populate_exit_trend, setCol]

/-- C7 witness: on the one-row dataframe `df_one` the entry and exit
callbacks produce the expected zeroed rows and `populate_indicators` is the
identity. -/
theorem populate_callbacks_spec_witness :
    ([("close", (5 : Int)), ("enter_long", 0), ("enter_short", 0)]
        ∈ populate_entry_trend df_one [])
    ∧ ([("close", (5 : Int)), ("exit_long", 0), ("exit_short", 0)]
        ∈ populate_exit_trend df_one [])
    ∧ populate_indicators df_one [] = df_one
    ∧ List.lookup "enter_long" [("close", (5 : Int)), ("enter_long", 0), ("enter_short", 0)]
        = some 0
    ∧ List.lookup "exit_short" [("close", (5 : Int)), ("exit_long", 0), ("exit_short", 0)]
        = some 0 := by
  have h1 : [("close", (5 : Int)), ("enter_long", 0), ("enter_short", 0)]
      ∈ populate_entry_trend df_one [] := by decide
  have h2 : [("close", (5 : Int)), ("exit_long", 0), ("exit_short", 0)]
      ∈ populate_exit_trend df_one [] := by decide
  have h := populate_callbacks_spec df_one [] _ _ h1 h2
  exact ⟨h1, h2, h.1, h.2.1, h.2.2.2.2.1⟩

/-- C10: after `__init__`, the leverage configuration values are unchanged
(`float` conversion is the identity on numeric values), every `minimal_roi`
value `v` has become `round(v * L, 4)` and the stoploss has been multiplied
by `L`, where `L` is the minimum of the leverage configuration values when
there are any and 1.0 otherwise; `config_max_trades` equals
`config['max_open_trades']` when that key holds an int and 0 otherwise. -/
theorem initStrategy_spec (cm : Option (Option Int)) (lev roi : List (String × ℚ))
    (sl : ℚ) :
    (initStrategy cm lev roi sl).leverage_configuration = lev
    ∧ (∀ L : ℚ, (lev.map (fun kv => kv.2)).min? = some L →
        (∀ k : String,
          ((initStrategy cm lev roi sl).minimal_roi).lookup k
            = (roi.lookup k).map (fun v => pyRound4 (v * L)))
        ∧ (initStrategy cm lev roi sl).stoploss = sl * L)
    ∧ ((lev.map (fun kv => kv.2)).min? = none →
        (∀ k : String,
          ((initStrategy cm lev roi sl).minimal_roi).lookup k
            = (roi.lookup k).map (fun v => pyRound4 (v * 1)))
        ∧ (initStrategy cm lev roi sl).stoploss = sl * 1)
    ∧ (∀ n : Int, cm = some (some n) →
        (initStrategy cm lev roi sl).config_max_trades = n)
    ∧ ((∀ n : Int, cm ≠ some (some n)) →
        (initStrategy cm lev roi sl).config_max_trades = 0) := by
  refine ⟨?_, ?_, ?_, ?_, ?_⟩
  · simp [initStrategy]
  · intro L hL
    cases lev with
    | nil => simp [List.min?] at hL
    | cons a l =>
      have hL2 : some (pyMin a.2 (l.map (fun kv => kv.2))) = some L := hL
      have hL3 : pyMin a.2 (l.map (fun kv => kv.2)) = L := Option.some.inj hL2
      constructor
      · intro k
        have hroi : (initStrategy cm (a :: l) roi sl).minimal_roi
            = roi.map (fun kv => (kv.1, pyRound4 (kv.2 * L))) := by
          simp [initStrategy, hL3]
        rw [hroi]
        exact lookup_map_snd (fun v => pyRound4 (v * L)) roi k
      · simp [initStrategy, hL3]
  · intro hL
    cases lev with
    | cons a l => simp [List.min?] at hL
    | nil =>
      constructor
      · intro k
        have hroi : (initStrategy cm [] roi sl).minimal_roi
            = roi.map (fun kv => (kv.1, pyRound4 (kv.2 * 1))) := by
          simp [initStrategy]
        rw [hroi]
        exact lookup_map_snd (fun v => pyRound4 (v * 1)) roi k
      · simp [initStrategy]
  · intro n hn
    subst hn
    simp [initStrategy]
  · intro hn
    cases cm with
    | none => simp [initStrategy]
    | some v =>
      cases v with
      | none => simp [initStrategy]
      | some n => exact absurd rfl (hn n)

/-- C10 witness: with a single configured leverage of 2 the stoploss is
doubled and the ROI table rescaled; with an empty configuration the factor
is 1; an int `max_open_trades` of 7 is taken over, a missing key yields 0. -/
theorem initStrategy_spec_witness :
    (([("default", (2 : ℚ))].map (fun kv => kv.2)).min? = some 2
    ∧ ((initStrategy (some (some 7)) [("default", 2)] [("0", 1)] (-1)).minimal_roi).lookup "0"
        = (([("0", (1 : ℚ))].lookup "0").map (fun v => pyRound4 (v * 2)))
    ∧ (initStrategy (some (some 7)) [("default", 2)] [("0", 1)] (-1)).stoploss = -1 * 2)
    ∧ ((([] : List (String × ℚ)).map (fun kv => kv.2)).min? = none
    ∧ (initStrategy (some (some 7)) [] [("0", 1)] (-1)).stoploss = -1 * 1)
    ∧ (initStrategy (some (some 7)) [("default", 2)] [("0", 1)] (-1)).config_max_trades = 7
    ∧ (initStrategy none [("default", 2)] [("0", 1)] (-1)).config_max_trades = 0 := by
  have h1 := initStrategy_spec (some (some 7)) [("default", 2)] [("0", 1)] (-1)
  have h2 := initStrategy_spec (some (some 7)) [] [("0", 1)] (-1)
  have h3 := initStrategy_spec none [("default", 2)] [("0", 1)] (-1)
  refine ⟨⟨rfl, (h1.2.1 2 rfl).1 "0", (h1.2.1 2 rfl).2⟩,
    ⟨rfl, (h2.2.2.1 rfl).2⟩,
    h1.2.2.2.1 7 rfl,
    h3.2.2.2.2 (by simp)⟩

end BaseStrategy
